import Mathlib

/-!
Verification of the carveman Postman-collection split/build engine.

The definitions below are a shallow embedding of the TypeScript sources:
  - `src/utils/sanitization.ts` (name sanitizers, unique-name generator)
  - `src/parser/postman_parser.ts` (validation, collection parsing, index records)
  - `src/commands/split_command.ts` (split: JSON tree → file-system writes)
  - `src/commands/build_command.ts` (build: file system → JSON tree)
  - `src/fs/file_system_manager.ts` (modelled as a pure file-system value)

JSON values are modelled by the inductive type `Json`; JavaScript truthiness,
`typeof` tests and field access are modelled explicitly.  Recursive walks over
JSON use an explicit fuel parameter (structural recursion on `Nat`) so that
every definition is executable and kernel-reducible; the entry points supply a
fuel that strictly exceeds the recursion depth of any input (`jsonSize` of the
JSON value, resp. the number of directories of the file system).
-/

namespace Carveman

mutual
/-- JSON values (the `any` payloads of the TypeScript source). `null` also
stands for JavaScript `undefined` where only truthiness matters; genuine
presence/absence of object fields is tracked by `getFieldOpt`.  Arrays and
objects carry their own list types so that all recursion over JSON is
plain structural (mutual) recursion. -/
inductive Json where
  | null : Json
  | bool : Bool → Json
  | num : Int → Json
  | str : String → Json
  | arr : JsonList → Json
  | obj : JsonObj → Json

/-- A list of JSON values (the elements of a JSON array). -/
inductive JsonList where
  | nil : JsonList
  | cons : Json → JsonList → JsonList

/-- The key/value fields of a JSON object, in insertion order. -/
inductive JsonObj where
  | nil : JsonObj
  | cons : String → Json → JsonObj → JsonObj
end

/-- The elements of a `JsonList` as an ordinary list. -/
def JsonList.toList : JsonList → List Json
  | .nil => []
  | .cons h t => h :: t.toList

/-- Build a `JsonList` from an ordinary list. -/
def JsonList.ofList : List Json → JsonList
  | [] => .nil
  | h :: t => .cons h (JsonList.ofList t)

/-- Build a `JsonObj` from an ordinary association list. -/
def JsonObj.ofList : List (String × Json) → JsonObj
  | [] => .nil
  | (k, v) :: t => .cons k v (JsonObj.ofList t)

/-- A JSON array from an ordinary list. -/
def jarr (l : List Json) : Json := .arr (JsonList.ofList l)

/-- A JSON object from an ordinary association list. -/
def jobj (l : List (String × Json)) : Json := .obj (JsonObj.ofList l)

mutual
/-- Number of constructors of a JSON value; an upper bound for the length
of any walk of the tree, used as fuel by the entry points. -/
def jsonSize : Json → Nat
  | .null => 1
  | .bool _ => 1
  | .num _ => 1
  | .str _ => 1
  | .arr l => 1 + jsonListSize l
  | .obj o => 1 + jsonObjSize o

/-- Size of a JSON array body. -/
def jsonListSize : JsonList → Nat
  | .nil => 1
  | .cons h t => 1 + jsonSize h + jsonListSize t

/-- Size of a JSON object body. -/
def jsonObjSize : JsonObj → Nat
  | .nil => 1
  | .cons _ v t => 1 + jsonSize v + jsonObjSize t
end

/-- JavaScript truthiness of a value (`!x` in the source is `¬ jsTruthy x`).
`NaN` is not modelled. -/
def jsTruthy : Json → Bool
  | .null => false
  | .bool b => b
  | .num n => n != 0
  | .str s => !s.isEmpty
  | .arr _ => true
  | .obj _ => true

/-- `typeof x === 'object'` (true for `null`, arrays and plain objects). -/
def jsTypeObject : Json → Bool
  | .null => true
  | .arr _ => true
  | .obj _ => true
  | _ => false

/-- `typeof x === 'string'`. -/
def jsIsString : Json → Bool
  | .str _ => true
  | _ => false

/-- `Array.isArray x`. -/
def jsIsArray : Json → Bool
  | .arr _ => true
  | _ => false

/-- First binding of `key` in an object body (JSON.parse keeps the last
duplicate key; the values built here never carry duplicate keys). -/
def JsonObj.lookup : JsonObj → String → Option Json
  | .nil, _ => none
  | .cons k v t, key => if k == key then some v else t.lookup key

/-- Field access distinguishing absence (JS `undefined`, `none`) from a
present value; on non-objects the result is `none` (JS gives `undefined`
for every property of a non-object primitive). -/
def getFieldOpt : Json → String → Option Json
  | .obj fields, key => fields.lookup key
  | _, _ => none

/-- Field access collapsing JS `undefined` to `null` (adequate wherever the
source only tests truthiness or `typeof` of the field). -/
def getField (j : Json) (key : String) : Json :=
  (getFieldOpt j key).getD .null

/-- JS `a || b` on values (used for the `x || []` defaults of the source). -/
def jsOr (a b : Json) : Json :=
  if jsTruthy a then a else b

/-- The string content of a value known to be a string (post-validation all
uses in the source are on validated string fields); other values give `""`. -/
def jsAsString : Json → String
  | .str s => s
  | _ => ""

/-- The element list of an array value (used only where the source has
established `Array.isArray`). -/
def jsArrElems : Json → List Json
  | .arr l => l.toList
  | _ => []

/-! ### String helpers (JS string primitives used by the source) -/

/-- `p` is a prefix of `l` (character lists). -/
def listStartsWith : List Char → List Char → Bool
  | [], _ => true
  | _ :: _, [] => false
  | p :: ps, c :: cs => p == c && listStartsWith ps cs

/-- `needle` occurs somewhere inside `hay` (character lists). -/
def listHasSub (needle : List Char) : List Char → Bool
  | [] => listStartsWith needle []
  | c :: cs => listStartsWith needle (c :: cs) || listHasSub needle cs

/-- JS `s.includes(sub)`. -/
def jsIncludes (s sub : String) : Bool :=
  listHasSub sub.data s.data

/-- JS `s.endsWith(suffix)`. -/
def jsEndsWith (s suffix : String) : Bool :=
  listStartsWith suffix.data.reverse s.data.reverse

/-- The white-space set of JS `String.prototype.trim` and of `\s`
(WhiteSpace ∪ LineTerminator of the ECMAScript standard). -/
def isJsWhitespace (c : Char) : Bool :=
  let n := c.toNat
  n == 9 || n == 10 || n == 11 || n == 12 || n == 13 || n == 32 ||
  n == 160 || n == 5760 || (8192 ≤ n && n ≤ 8202) || n == 8232 ||
  n == 8233 || n == 8239 || n == 8287 || n == 12288 || n == 65279

/-- JS `s.trim()` on a character list. -/
def trimChars (l : List Char) : List Char :=
  ((l.dropWhile isJsWhitespace).reverse.dropWhile isJsWhitespace).reverse

/-- JS `s.trim()`. -/
def jsTrim (s : String) : String :=
  ⟨trimChars s.data⟩

/-- The characters removed by the sanitizers: the regex class
`[<>:"/\\|?*]` of `sanitization.ts`. -/
def isForbiddenChar (c : Char) : Bool :=
  c == '<' || c == '>' || c == ':' || c == '"' || c == '/' ||
  c == '\\' || c == '|' || c == '?' || c == '*'

/-- ASCII decimal digit (matches the regex `\d`). -/
def isDigitChar (c : Char) : Bool :=
  48 ≤ c.toNat && c.toNat ≤ 57

/-! ### `src/utils/sanitization.ts` -/

/-- The pipeline of `sanitizeOriginalName` after the initial trim: drop
the forbidden file-system characters, drop control characters (codes
0-31), substitute `"unnamed"` for an empty or all-dots result, and prefix
a leading digit with an underscore. -/
def sanitizeChars (c1 : List Char) : List Char :=
  let c2 := c1.filter (fun c => !isForbiddenChar c)
  let c3 := c2.filter (fun c => 31 < c.toNat)
  let c4 := if c3.all (fun c => c == '.') then "unnamed".data else c3
  match c4 with
  | c :: rest => if isDigitChar c then '_' :: c :: rest else c :: rest
  | [] => []

/-- `sanitizeOriginalName` (sanitization.ts:187-209): trim, then the
cleaning pipeline `sanitizeChars`, exactly in the source's order. -/
def sanitizeOriginalName (name : String) : String :=
  ⟨sanitizeChars (trimChars name.data)⟩

/-- `sanitizeOriginalFileName` (sanitization.ts:217-223) with the default
extension `".json"`. -/
def sanitizeOriginalFileName (name : String) : String :=
  sanitizeOriginalName name ++ ".json"

/-- Replace every maximal run of JS white space by a single underscore
(the regex replace `\s+` → `_`); the flag records whether the previous
character was white space. -/
def collapseWs : Bool → List Char → List Char
  | _, [] => []
  | prevWs, c :: cs =>
    if isJsWhitespace c then
      if prevWs then collapseWs true cs else '_' :: collapseWs true cs
    else c :: collapseWs false cs

/-- Replace every maximal run of underscores by a single underscore
(the regex replace `_+` → `_`). -/
def collapseUnderscores : Bool → List Char → List Char
  | _, [] => []
  | prev, c :: cs =>
    if c == '_' then
      if prev then collapseUnderscores true cs
      else '_' :: collapseUnderscores true cs
    else c :: collapseUnderscores false cs

/-- Keep only `[a-zA-Z0-9_]` (the regex class of sanitizeName). -/
def isWordChar (c : Char) : Bool :=
  isDigitChar c || (65 ≤ c.toNat && c.toNat ≤ 90) ||
  (97 ≤ c.toNat && c.toNat ≤ 122) || c == '_'

/-- `sanitizeName` (sanitization.ts:11-31): snake_case sanitization —
white-space runs to `_`, hyphens to `_`, strip non-word characters,
lower-case, strip leading/trailing underscores, collapse underscore runs,
prefix a leading digit, and `"unnamed"` for an empty result. -/
def sanitizeName (name : String) : String :=
  let l1 := collapseWs false name.data
  let l2 := l1.map (fun c => if c == '-' then '_' else c)
  let l3 := l2.filter isWordChar
  let l4 := l3.map Char.toLower
  let l5 := (l4.dropWhile (fun c => c == '_')).reverse
    |>.dropWhile (fun c => c == '_') |>.reverse
  let l6 := collapseUnderscores false l5
  let l7 := match l6 with
    | c :: rest => if isDigitChar c then '_' :: c :: rest else c :: rest
    | [] => []
  if l7.isEmpty then "unnamed" else ⟨l7⟩

/-- `sanitizeFileName` (sanitization.ts:82-85) with the default extension
`".json"`. -/
def sanitizeFileName (name : String) : String :=
  sanitizeName name ++ ".json"

/-- `createSafeDirectoryName` (sanitization.ts:155-157); `sanitizeName`
never returns a falsy string, so the `|| 'collection'` default never
fires, but it is kept faithfully. -/
def createSafeDirectoryName (collection_name : String) : String :=
  let s := sanitizeName collection_name
  if s.isEmpty then "collection" else s

/-- The loop body of `generateUniqueName` (sanitization.ts:39-52): try
`base_counter`, `base_(counter+1)`, … until a candidate is free.  The JS
`while` loop always terminates because the candidates are pairwise
distinct and the set is finite; the fuel passed by `generateUniqueName`
(`existing.length + 1`) is large enough for the base case never to be
reached. -/
def uniqueNameAux (base : String) (existing : List String) : Nat → Nat → String
  | 0, counter => base ++ "_" ++ Nat.repr counter
  | fuel + 1, counter =>
    let candidate := base ++ "_" ++ Nat.repr counter
    if candidate ∈ existing then uniqueNameAux base existing fuel (counter + 1)
    else candidate

/-- `generateUniqueName` (sanitization.ts:39-52): the name itself if free,
otherwise the first free `base_N` for `N = 1, 2, …`. -/
def generateUniqueName (base : String) (existing : List String) : String :=
  if base ∈ existing then uniqueNameAux base existing (existing.length + 1) 1
  else base

/-! ### `src/parser/postman_parser.ts` — validation -/

/-- The `ValidationResult` interface of the parser. -/
structure ValidationResult where
  is_valid : Bool
  errors : List String
  warnings : List String
deriving DecidableEq, Repr

/-- `PostmanParser.validateItems` (postman_parser lines 593-640): walks the
item list, collecting errors and warnings; `continue` on a malformed item,
warning (not error) when an item has both `item` and `request`, recursion
into `item.item` when it is an array.  The fuel decreases at every step of
the walk; `validateCollection` supplies a fuel exceeding any walk length. -/
def validateItems : Nat → List Json → String → Nat → ValidationResult
  | 0, _, _, _ => ⟨true, [], []⟩
  | _ + 1, [], _, _ => ⟨true, [], []⟩
  | fuel + 1, item :: rest, path, i =>
    let item_path := path ++ ".item[" ++ Nat.repr i ++ "]"
    let rest_r := validateItems fuel rest path (i + 1)
    if !(jsTruthy item && jsTypeObject item) then
      ⟨true, ("Invalid item at " ++ item_path ++ ": not an object") :: rest_r.errors,
        rest_r.warnings⟩
    else if !(jsTruthy (getField item "name") && jsIsString (getField item "name")) then
      ⟨true, ("Invalid item at " ++ item_path ++ ": missing or invalid name") :: rest_r.errors,
        rest_r.warnings⟩
    else
      let has_items := jsIsArray (getField item "item")
      let has_request := jsTruthy (getField item "request") && jsTypeObject (getField item "request")
      if has_items && has_request then
        let nested := validateItems fuel (jsArrElems (getField item "item")) item_path 0
        ⟨true, nested.errors ++ rest_r.errors,
          ("Item at " ++ item_path ++
            " has both \"item\" and \"request\" fields, treating as folder") ::
            (nested.warnings ++ rest_r.warnings)⟩
      else if !has_items && !has_request then
        ⟨true, ("Item at " ++ item_path ++ " has neither \"item\" nor \"request\" field") ::
          rest_r.errors, rest_r.warnings⟩
      else if has_items then
        let nested := validateItems fuel (jsArrElems (getField item "item")) item_path 0
        ⟨true, nested.errors ++ rest_r.errors, nested.warnings ++ rest_r.warnings⟩
      else rest_r

/-- `PostmanParser.validateCollection` (postman_parser lines 520-585):
object check, `info` presence, `info.name` / `info.schema` checks (both
collected, no short-circuit), schema-version warning, `item` presence and
array shape, then the recursive item validation. -/
def validateCollection (j : Json) : ValidationResult :=
  if !(jsTruthy j && jsTypeObject j) then
    ⟨false, ["Invalid JSON: not an object"], []⟩
  else if !(jsTruthy (getField j "info")) then
    ⟨false, ["Missing required \"info\" field"], []⟩
  else
    let info := getField j "info"
    let name_ok := jsTruthy (getField info "name") && jsIsString (getField info "name")
    let name_errs := if !name_ok then ["Missing or invalid \"info.name\" field"] else []
    let schema_ok := jsTruthy (getField info "schema") && jsIsString (getField info "schema")
    let schema_errs := if !schema_ok then ["Missing or invalid \"info.schema\" field"] else []
    let schema_warns :=
      if schema_ok && !(jsIncludes (jsAsString (getField info "schema")) "v2.1") then
        ["Schema version is not v2.1, some features may not work correctly"]
      else []
    if !(jsTruthy (getField j "item")) then
      ⟨false, name_errs ++ schema_errs ++ ["Missing required \"item\" field"], schema_warns⟩
    else if !(jsIsArray (getField j "item")) then
      ⟨false, name_errs ++ schema_errs ++ ["\"item\" field must be an array"], schema_warns⟩
    else
      let iv := validateItems (jsonSize j) (jsArrElems (getField j "item")) "root" 0
      let errs := name_errs ++ schema_errs ++ iv.errors
      ⟨errs.isEmpty, errs, schema_warns ++ iv.warnings⟩

/-! ### `src/parser/postman_parser.ts` — collection parsing -/

/-- The `PostmanItemType` union `'folder' | 'request'`. -/
inductive ItemType where
  | folder : ItemType
  | request : ItemType
deriving DecidableEq, Repr

/-- The scalar fields of a `ProcessedItem` (postman_parser lines 886-899);
optional/opaque payload fields are `Option Json`, `none` standing for JS
`undefined`.  The TS field `variable` becomes `vars` and `event` becomes
`events` (`variable` is a Lean keyword); `protocolProfileBehavior` is
abbreviated `ppb`. -/
structure ItemData where
  original_name : String
  sanitized_name : String
  path : String
  type : ItemType
  description : Option Json
  vars : Option Json
  events : Option Json
  auth : Option Json
  ppb : Option Json
  request : Option Json
  response : Option Json

/-- A processed item: data plus recursively processed children. -/
inductive ProcessedItem where
  | node : ItemData → List ProcessedItem → ProcessedItem

/-- The scalar data of a processed item. -/
def ProcessedItem.data : ProcessedItem → ItemData
  | .node d _ => d

/-- The children of a processed item. -/
def ProcessedItem.children : ProcessedItem → List ProcessedItem
  | .node _ c => c

/-- `PostmanParser.processItem` (postman_parser lines 678-713) over a list
of sibling items, threading the parser's single `existing_names` set
through the *entire* walk (the set is a class field shared by all
recursive calls, so the same set flows into children and on to later
siblings).  Classification: a truthy `item` field means folder, otherwise
a truthy `request` field means request with
`response = item.response || []`.  A truthy non-array `item` field would
make the JS `for…of` throw; such nodes (not reachable in any theorem
below) get an empty child list here.  Fuel decreases at every step of the
walk. -/
def procItems : Nat → List Json → String → List String → (List ProcessedItem × List String)
  | 0, _, _, names => ([], names)
  | _ + 1, [], _, names => ([], names)
  | fuel + 1, item :: rest, parent_path, names =>
    let original := jsAsString (getField item "name")
    let unique := generateUniqueName (sanitizeOriginalName original) names
    let names1 := unique :: names
    let current_path := if parent_path.isEmpty then unique
      else parent_path ++ "/" ++ unique
    let is_folder := jsTruthy (getField item "item")
    let step := if is_folder then
        match getField item "item" with
        | .arr elems => procItems fuel elems.toList current_path names1
        | _ => ([], names1)
      else ([], names1)
    let req := if is_folder then none
      else if jsTruthy (getField item "request") then some (getField item "request")
      else none
    let resp := if is_folder then none
      else if jsTruthy (getField item "request") then
        some (jsOr (getField item "response") (jarr []))
      else none
    let data : ItemData :=
      { original_name := original
        sanitized_name := unique
        path := current_path
        type := if is_folder then .folder else .request
        description := getFieldOpt item "description"
        vars := getFieldOpt item "variable"
        events := getFieldOpt item "event"
        auth := getFieldOpt item "auth"
        ppb := getFieldOpt item "protocolProfileBehavior"
        request := req
        response := resp }
    let tail := procItems fuel rest parent_path step.2
    (ProcessedItem.node data step.1 :: tail.1, tail.2)

/-- The collection-level metadata extracted by `parseCollection`
(postman_parser lines 650-660): `variable`/`event` defaulted to `[]` via
JS `||`, `auth` and `protocolProfileBehavior` passed through. -/
structure CollectionMetadata where
  vars : Json
  events : Json
  auth : Option Json
  ppb : Option Json

/-- The result of `PostmanParser.parseCollection` (postman_parser lines
647-670); the `structure` mirror of the source carries exactly the
`sanitized_name`/`type`/children of `items`, so it is not duplicated here
(`createCollectionIndex` below reads those fields from `items`
directly). -/
structure ParsedCollection where
  info : Json
  metadata : CollectionMetadata
  items : List ProcessedItem

/-- `PostmanParser.parseCollection`: clears the name set and processes all
top-level items with parent path `""`. -/
def parseCollection (j : Json) : ParsedCollection :=
  { info := getField j "info"
    metadata :=
      { vars := jsOr (getField j "variable") (jarr [])
        events := jsOr (getField j "event") (jarr [])
        auth := getFieldOpt j "auth"
        ppb := getFieldOpt j "protocolProfileBehavior" }
    items := (procItems (jsonSize j) (jsArrElems (getField j "item")) "" []).1 }

/-! ### Index records written by split (postman_parser lines 744-830) -/

/-- A JS object literal whose `undefined`-valued keys are dropped, exactly
as `JSON.stringify` drops them when the record is written to disk. -/
def objOpt (fields : List (String × Option Json)) : Json :=
  jobj (fields.filterMap fun kv => kv.2.map fun v => (kv.1, v))

/-- The `order` array of `createCollectionIndex` (lines 761-763): folder
entries keep the assigned name, request entries get a literal `".json"`
suffix appended to the assigned name. -/
def collectionOrder (items : List ProcessedItem) : List String :=
  items.map fun it =>
    if it.data.type = .folder then it.data.sanitized_name
    else it.data.sanitized_name ++ ".json"

/-- `PostmanParser.createCollectionIndex` (lines 744-765) as the JSON value
written to `index.json`.  The `generated_at` timestamp is modelled as `""`
(build never reads the `meta` block). -/
def createCollectionIndex (info : Json) (md : CollectionMetadata)
    (items : List ProcessedItem) : Json :=
  objOpt
    [("meta", some (jobj
        [("type", .str "collection"), ("version", .str "2.1.0"),
         ("generated_by", .str "carveman"), ("generated_at", .str "")])),
     ("info", some info),
     ("variable", some md.vars),
     ("event", some md.events),
     ("auth", md.auth),
     ("protocolProfileBehavior", md.ppb),
     ("order", some (jarr ((collectionOrder items).map .str)))]

/-- The `order` array of `createFolderIndex` (lines 781-785): folder
children keep the assigned name, request children are passed through
`sanitizeOriginalFileName`. -/
def folderOrder (children : List ProcessedItem) : List String :=
  children.map fun c =>
    if c.data.type = .folder then c.data.sanitized_name
    else sanitizeOriginalFileName c.data.sanitized_name

/-- `PostmanParser.createFolderIndex` (lines 773-800) as the JSON value
written to the folder's `index.json`; `name` is the *original display
name*. -/
def createFolderIndex (d : ItemData) (children : List ProcessedItem)
    (parent_path : String) : Json :=
  objOpt
    [("meta", some (jobj [("type", .str "folder"), ("parent_path", .str parent_path)])),
     ("name", some (.str d.original_name)),
     ("description", d.description),
     ("variable", d.vars),
     ("event", d.events),
     ("auth", d.auth),
     ("protocolProfileBehavior", d.ppb),
     ("order", some (jarr ((folderOrder children).map .str)))]

/-- `PostmanParser.createRequestFile` (lines 808-830) as the JSON value
written to the request file. -/
def createRequestFile (d : ItemData) (folder_path : String) : Json :=
  objOpt
    [("meta", some (jobj [("type", .str "request"), ("folder_path", .str folder_path)])),
     ("name", some (.str d.original_name)),
     ("description", d.description),
     ("variable", d.vars),
     ("event", d.events),
     ("request", d.request),
     ("response", d.response),
     ("auth", d.auth),
     ("protocolProfileBehavior", d.ppb)]

/-! ### The file system (`src/fs/file_system_manager.ts`)

The file-system manager is a thin wrapper over `mkdir` / JSON read /
JSON write / `stat`; it is modelled as a pure value: the set of created
directory paths and the written files (path ↦ parsed JSON content).
`path.join` is modelled as `/`-concatenation (all path segments produced
by split are sanitized names without separators, so node's normalization
is the identity on them). -/

/-- A pure file system: created directories and written JSON files. -/
structure Fs where
  dirs : List String
  files : List (String × Json)

/-- `path.join(a, b)`. -/
def joinPath (a b : String) : String := a ++ "/" ++ b

/-- `FileSystemManager.isDirectory`. -/
def Fs.isDir (fs : Fs) (p : String) : Bool := fs.dirs.contains p

/-- `FileSystemManager.readJsonFile` (content of a written file). -/
def Fs.lookupFile (fs : Fs) (p : String) : Option Json := fs.files.lookup p

/-- `FileSystemManager.isFile`. -/
def Fs.isFile (fs : Fs) (p : String) : Bool := (fs.lookupFile p).isSome

/-- `FileSystemManager.pathExists`. -/
def Fs.pathExists (fs : Fs) (p : String) : Bool := fs.isDir p || fs.isFile p

/-- `FileSystemManager.createDirectory` (`mkdir -p`; re-creating an
existing directory is a no-op for all observations above). -/
def Fs.mkdir (fs : Fs) (p : String) : Fs := ⟨p :: fs.dirs, fs.files⟩

/-- `FileSystemManager.writeJsonFile`: last write wins. -/
def Fs.writeFile (fs : Fs) (p : String) (c : Json) : Fs :=
  ⟨fs.dirs, (p, c) :: fs.files.filter (fun kv => kv.1 != p)⟩

/-- The empty file system. -/
def emptyFs : Fs := ⟨[], []⟩

/-! ### `src/commands/split_command.ts` -/

/-- The split-relevant part of `ISplitOptions` (`verbose` only controls
console echo and is omitted). -/
structure SplitOptions where
  output : Option String
  overwrite : Bool
  dry_run : Bool

/-- The `SplitResult` interface. -/
structure SplitResult where
  success : Bool
  collection_name : String
  output_directory : String
  files_created : Nat
  folders_created : Nat
  errors : List String
  warnings : List String
deriving DecidableEq, Repr

/-- `SplitCommand.processItem` (split_command lines 160-232) over a list of
sibling items: a folder gets a directory named by its assigned name plus
an `index.json`, then its children are processed inside it; a request is
written to `sanitizeFileName(sanitized_name)` — note the snake_case
re-sanitization of the already-assigned name.  A request item without a
request payload makes `createRequestFile` throw, which the `catch` turns
into an error entry.  Returns the file system plus
(files_created, folders_created, errors). -/
def splitItems : Nat → List ProcessedItem → String → Fs → (Fs × Nat × Nat × List String)
  | 0, _, _, fs => (fs, 0, 0, [])
  | _ + 1, [], _, fs => (fs, 0, 0, [])
  | fuel + 1, .node d children :: rest, parent_path, fs =>
    if d.type = .folder then
      let folder_path := joinPath parent_path d.sanitized_name
      let fs1 := fs.mkdir folder_path
      let fs2 := fs1.writeFile (joinPath folder_path "index.json")
        (createFolderIndex d children parent_path)
      let sub := splitItems fuel children folder_path fs2
      let tail := splitItems fuel rest parent_path sub.1
      (tail.1, 1 + sub.2.1 + tail.2.1, 1 + sub.2.2.1 + tail.2.2.1,
        sub.2.2.2 ++ tail.2.2.2)
    else
      match d.request with
      | some _ =>
        let request_filename := sanitizeFileName d.sanitized_name
        let fs1 := fs.writeFile (joinPath parent_path request_filename)
          (createRequestFile d parent_path)
        let tail := splitItems fuel rest parent_path fs1
        (tail.1, 1 + tail.2.1, tail.2.2.1, tail.2.2.2)
      | none =>
        let tail := splitItems fuel rest parent_path fs
        (tail.1, tail.2.1, tail.2.2.1,
          ("Failed to process item " ++ d.original_name ++
            ": Error: Cannot create request file for non-request item") :: tail.2.2.2)

/-- `SplitCommand.countItems` (split_command lines 285-305), used by the
dry run: (files, folders). -/
def countItems : Nat → List ProcessedItem → (Nat × Nat)
  | 0, _ => (0, 0)
  | _ + 1, [] => (0, 0)
  | fuel + 1, .node d children :: rest =>
    let tail := countItems fuel rest
    if d.type = .folder then
      let sub := countItems fuel children
      (1 + sub.1 + tail.1, 1 + sub.2 + tail.2)
    else (1 + tail.1, tail.2)

/-- `SplitCommand.execute` (split_command lines 23-151).  `input_path` and
`inputExists` stand for the input JSON file and its existence check; `j`
is the parsed content (a read/parse failure surfaces before validation
and is not needed by any claim).  `cwd` is `process.cwd()`.  Returns the
result together with the file system after all writes. -/
def splitExecute (input_path : String) (inputExists : Bool) (j : Json)
    (opts : SplitOptions) (cwd : String) (fs : Fs) : SplitResult × Fs :=
  if !inputExists then
    ({ success := false, collection_name := "", output_directory := ""
       files_created := 0, folders_created := 0
       errors := ["Input file does not exist: " ++ input_path], warnings := [] }, fs)
  else
    let validation := validateCollection j
    if !validation.is_valid then
      ({ success := false, collection_name := "", output_directory := ""
         files_created := 0, folders_created := 0
         errors := validation.errors, warnings := [] }, fs)
    else
      let warnings := validation.warnings
      let collection_name := jsAsString (getField (getField j "info") "name")
      let parsed := parseCollection j
      let output_dir := match opts.output with
        | some s => if s.isEmpty then cwd else s
        | none => cwd
      let full_output_path := joinPath output_dir (createSafeDirectoryName collection_name)
      if fs.pathExists full_output_path && !(opts.overwrite || opts.dry_run) then
        -- promptOverwrite (split_command lines 329-339) always answers no
        ({ success := false, collection_name := collection_name
           output_directory := full_output_path
           files_created := 0, folders_created := 0
           errors := ["Operation cancelled by user"], warnings := warnings }, fs)
      else if opts.dry_run then
        -- performDryRun (split_command lines 241-278): fresh result, no writes
        let counts := countItems (jsonSize j) parsed.items
        ({ success := true, collection_name := collection_name
           output_directory := full_output_path
           files_created := 1 + counts.1, folders_created := 1 + counts.2
           errors := [], warnings := [] }, fs)
      else
        let fs1 := fs.mkdir full_output_path
        let fs2 := fs1.writeFile (joinPath full_output_path "index.json")
          (createCollectionIndex parsed.info parsed.metadata parsed.items)
        let walk := splitItems (jsonSize j) parsed.items full_output_path fs2
        ({ success := walk.2.2.2.isEmpty, collection_name := collection_name
           output_directory := full_output_path
           files_created := 1 + walk.2.1, folders_created := 1 + walk.2.2.1
           errors := walk.2.2.2, warnings := warnings }, walk.1)

/-! ### `src/commands/build_command.ts` -/

/-- The build-relevant part of `IBuildOptions` (`verbose` only controls
console echo and is omitted). -/
structure BuildOptions where
  output : Option String
  validate : Bool

/-- The `BuildResult` interface. -/
structure BuildResult where
  success : Bool
  collection_name : String
  output_file : String
  items_processed : Nat
  errors : List String
  warnings : List String
deriving DecidableEq, Repr

/-- All elements of a JSON array as strings; `none` if some element is not
a string (for such an element `path.join` throws a `TypeError` in the
source, aborting the surrounding operation). -/
def allStrings : List Json → Option (List String)
  | [] => some []
  | .str s :: rest => (allStrings rest).map (s :: ·)
  | _ => none

/-- The child loop of `BuildCommand.processFolder` (build_command lines
201-213): children are assembled exactly in `order` sequence; a missing
child or a child whose processing yields nothing is skipped with no
record (only a `verbose` console message). -/
def childrenLoop (step : String → Option Json) (present : String → Bool) :
    List String → List Json
  | [] => []
  | n :: rest =>
    let tail := childrenLoop step present rest
    if present n then
      match step n with
      | some it => it :: tail
      | none => tail
    else tail

/-- `BuildCommand.processItem` (build_command lines 148-172) together with
`processFolder` (180-216) and `processRequest` (224-248).  A directory is
processed as a folder — an unreadable/missing folder `index.json` or a
non-iterable/non-string `order` throws, which the caller's `catch` turns
into `null`; a file is processed as a request only when its path ends in
`.json`; anything else yields `null`.  Fuel decreases only when
descending into a directory, so the number of directories of the file
system plus one bounds it. -/
def buildProcessItem : Nat → Fs → String → Option Json
  | 0, _, _ => none
  | fuel + 1, fs, item_path =>
    if fs.isDir item_path then
      match fs.lookupFile (joinPath item_path "index.json") with
      | none => none
      | some folder_index =>
        match getFieldOpt folder_index "order" with
        | some (.arr order) =>
          match allStrings order.toList with
          | some names =>
            let children := childrenLoop
              (fun n => buildProcessItem fuel fs (joinPath item_path n))
              (fun n => fs.pathExists (joinPath item_path n)) names
            some (objOpt
              [("name", getFieldOpt folder_index "name"),
               ("description", getFieldOpt folder_index "description"),
               ("variable", getFieldOpt folder_index "variable"),
               ("event", getFieldOpt folder_index "event"),
               ("auth", getFieldOpt folder_index "auth"),
               ("protocolProfileBehavior", getFieldOpt folder_index "protocolProfileBehavior"),
               ("item", some (jarr children))])
          | none => none
        | _ => none
    else if fs.isFile item_path && jsEndsWith item_path ".json" then
      match fs.lookupFile item_path with
      | some request_data =>
        some (objOpt
          [("name", getFieldOpt request_data "name"),
           ("description", getFieldOpt request_data "description"),
           ("variable", getFieldOpt request_data "variable"),
           ("event", getFieldOpt request_data "event"),
           ("auth", getFieldOpt request_data "auth"),
           ("protocolProfileBehavior", getFieldOpt request_data "protocolProfileBehavior"),
           ("request", getFieldOpt request_data "request"),
           ("response", getFieldOpt request_data "response")])
      | none => none
    else none

/-- The root item loop of `BuildCommand.execute` (build_command lines
88-100): for each `order` entry, a missing path records an
`"Item not found"` warning; an existing path contributes an item and an
`items_processed` tick exactly when `processItem` yields one.  Returns
(items, items_processed, warnings). -/
def rootItems (step : String → Option Json) (present : String → Bool) :
    List String → (List Json × Nat × List String)
  | [] => ([], 0, [])
  | n :: rest =>
    let tail := rootItems step present rest
    if present n then
      match step n with
      | some it => (it :: tail.1, tail.2.1 + 1, tail.2.2)
      | none => tail
    else (tail.1, tail.2.1, ("Item not found: " ++ n) :: tail.2.2)

/-- The root item loop instantiated the way `BuildCommand.execute` uses it
(paths joined under the input directory, items built by
`buildProcessItem`). -/
def rootProcess (fuel : Nat) (fs : Fs) (input_path : String)
    (names : List String) : List Json × Nat × List String :=
  rootItems (fun n => buildProcessItem fuel fs (joinPath input_path n))
    (fun n => fs.pathExists (joinPath input_path n)) names

/-- `BuildCommand.validateItems` (build_command lines 305-353) — the build
command's own item validator, used by the `--validate` flag. -/
def buildValidateItems : Nat → List Json → String → Nat → ValidationResult
  | 0, _, _, _ => ⟨true, [], []⟩
  | _ + 1, [], _, _ => ⟨true, [], []⟩
  | fuel + 1, item :: rest, path, i =>
    let item_path := path ++ ".item[" ++ Nat.repr i ++ "]"
    let rest_r := buildValidateItems fuel rest path (i + 1)
    if !(jsTruthy item) then
      ⟨true, ("Item at index " ++ Nat.repr i ++ " is undefined") :: rest_r.errors,
        rest_r.warnings⟩
    else if !(jsTruthy (getField item "name")) then
      ⟨true, ("Missing name for item at " ++ item_path) :: rest_r.errors, rest_r.warnings⟩
    else
      let has_items := jsIsArray (getField item "item")
      let has_request := jsTruthy (getField item "request") && jsTypeObject (getField item "request")
      if has_items && has_request then
        let nested := buildValidateItems fuel (jsArrElems (getField item "item")) item_path 0
        ⟨true, nested.errors ++ rest_r.errors,
          ("Item at " ++ item_path ++ " has both \"item\" and \"request\" fields") ::
            (nested.warnings ++ rest_r.warnings)⟩
      else if !has_items && !has_request then
        ⟨true, ("Item at " ++ item_path ++ " has neither \"item\" nor \"request\" field") ::
          rest_r.errors, rest_r.warnings⟩
      else if has_items then
        let nested := buildValidateItems fuel (jsArrElems (getField item "item")) item_path 0
        ⟨true, nested.errors ++ rest_r.errors, nested.warnings ++ rest_r.warnings⟩
      else rest_r

/-- `BuildCommand.validateReconstructedCollection` (build_command lines
255-297). -/
def validateReconstructedCollection (collection : Json) : ValidationResult :=
  if !(jsTruthy (getField collection "info")) then
    ⟨false, ["Missing collection info"], []⟩
  else
    let info := getField collection "info"
    let name_errs := if !(jsTruthy (getField info "name")) then ["Missing collection name"] else []
    let schema_errs := if !(jsTruthy (getField info "schema")) then ["Missing collection schema"] else []
    if !(jsIsArray (getField collection "item")) then
      ⟨false, name_errs ++ schema_errs ++ ["Collection items must be an array"], []⟩
    else
      let iv := buildValidateItems (jsonSize collection)
        (jsArrElems (getField collection "item")) "root" 0
      let errs := name_errs ++ schema_errs ++ iv.errors
      ⟨errs.isEmpty, errs, iv.warnings⟩

/-- `BuildCommand.execute` (build_command lines 22-140).  Directory
checks, directory-structure validation (in this model a file stores
parsed JSON, so only presence of `index.json` can fail), reading the
collection index, the root item loop, optional re-validation, and the
final write.  `collection_index.info.name` throws a `TypeError` when
`info` is missing or `null`, and iterating a missing/non-array `order`
(or joining a non-string entry) throws as well; both are caught by the
surrounding `catch` and reported as a fatal `"Build operation failed"`
error. -/
def buildExecute (fs : Fs) (input_path : String) (opts : BuildOptions) :
    BuildResult × Fs :=
  if !(fs.pathExists input_path) then
    ({ success := false, collection_name := "", output_file := ""
       items_processed := 0
       errors := ["Input directory does not exist: " ++ input_path]
       warnings := [] }, fs)
  else if !(fs.isDir input_path) then
    ({ success := false, collection_name := "", output_file := ""
       items_processed := 0
       errors := ["Input path is not a directory: " ++ input_path]
       warnings := [] }, fs)
  else
    match fs.lookupFile (joinPath input_path "index.json") with
    | none =>
      ({ success := false, collection_name := "", output_file := ""
         items_processed := 0
         errors := ["Missing index.json in: " ++ input_path]
         warnings := [] }, fs)
    | some collection_index =>
      match getFieldOpt collection_index "info" with
      | none =>
        ({ success := false, collection_name := "", output_file := ""
           items_processed := 0
           errors := ["Build operation failed: TypeError"], warnings := [] }, fs)
      | some .null =>
        ({ success := false, collection_name := "", output_file := ""
           items_processed := 0
           errors := ["Build operation failed: TypeError"], warnings := [] }, fs)
      | some info =>
        let collection_name := jsAsString (getField info "name")
        match getFieldOpt collection_index "order" with
        | some (.arr order) =>
          match allStrings order.toList with
          | some names =>
            -- descent only enters directories, so |dirs| + 1 bounds its depth
            let walk := rootProcess (fs.dirs.length + 1) fs input_path names
            let collection := objOpt
              [("info", some info),
               ("item", some (jarr walk.1)),
               ("variable", getFieldOpt collection_index "variable"),
               ("event", getFieldOpt collection_index "event"),
               ("auth", getFieldOpt collection_index "auth"),
               ("protocolProfileBehavior", getFieldOpt collection_index "protocolProfileBehavior")]
            -- resolvePath is modelled as the identity
            let output_file := match opts.output with
              | some s => if s.isEmpty then "collection.json" else s
              | none => "collection.json"
            if opts.validate then
              let vr := validateReconstructedCollection collection
              if !vr.is_valid then
                ({ success := false, collection_name := collection_name
                   output_file := output_file, items_processed := walk.2.1
                   errors := vr.errors, warnings := walk.2.2 }, fs)
              else
                ({ success := true, collection_name := collection_name
                   output_file := output_file, items_processed := walk.2.1
                   errors := [], warnings := walk.2.2 ++ vr.warnings },
                 fs.writeFile output_file collection)
            else
              ({ success := true, collection_name := collection_name
                 output_file := output_file, items_processed := walk.2.1
                 errors := [], warnings := walk.2.2 },
               fs.writeFile output_file collection)
          | none =>
            ({ success := false, collection_name := collection_name
               output_file := "", items_processed := 0
               errors := ["Build operation failed: TypeError"], warnings := [] }, fs)
        | _ =>
          ({ success := false, collection_name := collection_name
             output_file := "", items_processed := 0
             errors := ["Build operation failed: TypeError"], warnings := [] }, fs)

/-! ### Concrete inputs used by the theorems -/

/-- The spec's §8 concrete scenario: a collection `T` with one request
named `Get`. -/
def rtCollection : Json := jobj
  [("info", jobj [("name", .str "T"),
     ("schema", .str "https://schema.getpostman.com/json/collection/v2.1.0/collection.json")]),
   ("item", jarr [jobj [("name", .str "Get"),
     ("request", jobj [("method", .str "GET"), ("url", .str "http://x")])]])]

/-- Splitting `rtCollection` into a fresh output directory `out`. -/
def rtSplit : SplitResult × Fs :=
  splitExecute "collection.json" true rtCollection
    ⟨some "out", false, false⟩ "/cwd" emptyFs

/-- Building the split output back into a collection. -/
def rtBuild : BuildResult × Fs :=
  buildExecute rtSplit.2 rtSplit.1.output_directory ⟨some "rebuilt.json", false⟩

/-- Two folders `A` and `B` under the root, each containing a request
named `v1` (same display name under different parents). -/
def scopeCollection : Json := jobj
  [("info", jobj [("name", .str "C"),
     ("schema", .str "https://schema.getpostman.com/json/collection/v2.1.0/collection.json")]),
   ("item", jarr
     [jobj [("name", .str "A"), ("item", jarr
        [jobj [("name", .str "v1"), ("request", jobj [("method", .str "GET")])]])],
      jobj [("name", .str "B"), ("item", jarr
        [jobj [("name", .str "v1"), ("request", jobj [("method", .str "GET")])]])]])]

/-- A single request item named `v1` (used to exercise `procItems` against
a name set that already contains `v1`). -/
def itemV1 : Json :=
  jobj [("name", .str "v1"), ("request", jobj [("method", .str "GET")])]

/-- An item carrying both an `item` array and a `request` object. -/
def bothFieldsItem : Json :=
  jobj [("name", .str "X"), ("item", jarr []),
        ("request", jobj [("url", .str "http://x")])]

/-- Two sibling requests, both with display name `Item`. -/
def dupCollection : Json := jobj
  [("info", jobj [("name", .str "T"),
     ("schema", .str "https://schema.getpostman.com/json/collection/v2.1.0/collection.json")]),
   ("item", jarr
     [jobj [("name", .str "Item"), ("request", jobj [("method", .str "GET")])],
      jobj [("name", .str "Item"), ("request", jobj [("method", .str "GET")])]])]

/-- Splitting `dupCollection` into a fresh output directory `out`. -/
def dupSplit : SplitResult × Fs :=
  splitExecute "collection.json" true dupCollection
    ⟨some "out", false, false⟩ "/cwd" emptyFs

/-- A collection whose `info` field is an object lacking both `name` and
`schema`. -/
def noNameSchemaInput : Json :=
  jobj [("info", jobj [("description", .str "d")]), ("item", jarr [])]

/-- An on-disk layout whose root `index.json` references folder `A`, and
whose folder `A` references a `ghost.json` that does not exist. -/
def ghostFs : Fs :=
  { dirs := ["c", "c/A"]
    files :=
      [("c/index.json", jobj
         [("info", jobj [("name", .str "N"),
            ("schema", .str "https://schema.getpostman.com/json/collection/v2.1.0/collection.json")]),
          ("order", jarr [.str "A"])]),
       ("c/A/index.json", jobj
         [("name", .str "A"), ("order", jarr [.str "ghost.json"])])] }

/-- Building `ghostFs`. -/
def ghostBuild : BuildResult × Fs := buildExecute ghostFs "c" ⟨none, false⟩

/-- A directory holding two request files, listed in reverse alphabetical
order by the index. -/
def orderFs : Fs :=
  { dirs := ["r"]
    files := [("r/b.json", jobj [("name", .str "B")]),
              ("r/a.json", jobj [("name", .str "A")])] }

/-- A directory holding a file whose name does not end in `.json`. -/
def strayFileFs : Fs :=
  { dirs := ["r"], files := [("r/x.txt", jobj [("name", .str "X")])] }

/-! ### Helper lemmas -/

/-- Whatever the fuel, the unique-name loop returns `base_c` for some
counter `c` at least as large as the starting one. -/
lemma uniqueNameAux_shape (base : String) (ex : List String) (fuel counter : Nat) :
    ∃ c, counter ≤ c ∧ uniqueNameAux base ex fuel counter = base ++ "_" ++ Nat.repr c := by
  induction fuel generalizing counter with
  | zero => exact ⟨counter, Nat.le_refl _, rfl⟩
  | succ fuel ih =>
    by_cases h : (base ++ "_" ++ Nat.repr counter) ∈ ex
    · obtain ⟨c, hc, he⟩ := ih (counter + 1)
      refine ⟨c, by omega, ?_⟩
      simpa [uniqueNameAux, h] using he
    · exact ⟨counter, Nat.le_refl _, by simp [uniqueNameAux, h]⟩

/-- Appending `"_" ++ r` to a string changes it. -/
lemma append_underscore_ne (base r : String) : base ++ "_" ++ r ≠ base := by
  intro h
  have hlen := congrArg String.length h
  rw [String.length_append, String.length_append] at hlen
  have h1 : ("_" : String).length = 1 := rfl
  omega

/-- A free base name is returned unchanged. -/
lemma generateUniqueName_not_mem (base : String) (ex : List String)
    (h : base ∉ ex) : generateUniqueName base ex = base := by
  simp [generateUniqueName, h]

/-- A taken base name receives an underscore-and-counter suffix. -/
lemma generateUniqueName_mem (base : String) (ex : List String) (h : base ∈ ex) :
    ∃ c, 1 ≤ c ∧ generateUniqueName base ex = base ++ "_" ++ Nat.repr c := by
  rw [generateUniqueName, if_pos h]
  exact uniqueNameAux_shape base ex (ex.length + 1) 1

/-- When the base name is taken but `base_1` is free, the result is
`base_1`. -/
lemma generateUniqueName_first (base : String) (ex : List String)
    (h : base ∈ ex) (h1 : base ++ "_" ++ Nat.repr 1 ∉ ex) :
    generateUniqueName base ex = base ++ "_" ++ Nat.repr 1 := by
  rw [generateUniqueName, if_pos h]
  obtain ⟨k, hk⟩ : ∃ k, ex.length = k + 1 := by
    cases ex with
    | nil => cases h
    | cons a t => exact ⟨t.length, rfl⟩
  rw [hk]
  show uniqueNameAux base ex (k + 1 + 1) 1 = _
  simp [uniqueNameAux, h1]

/-- Every character surviving the sanitizing pipeline is neither forbidden
nor a control character; the result is never all dots; its head is never
a digit. -/
lemma sanitizeChars_spec (l : List Char) :
    (∀ c ∈ sanitizeChars l, isForbiddenChar c = false ∧ 31 < c.toNat) ∧
    (sanitizeChars l).all (fun c => c == '.') = false ∧
    (∀ c ∈ (sanitizeChars l).head?, isDigitChar c = false) := by
  simp only [sanitizeChars]
  by_cases hd : ((l.filter (fun c => !isForbiddenChar c)).filter
      (fun c => 31 < c.toNat)).all (fun c => c == '.') = true
  · rw [if_pos hd]
    decide
  · rw [if_neg hd]
    cases hm : (l.filter (fun c => !isForbiddenChar c)).filter (fun c => 31 < c.toNat) with
    | nil =>
      rw [hm] at hd
      exact absurd rfl hd
    | cons c rest =>
      have hmem : ∀ x ∈ c :: rest, isForbiddenChar x = false ∧ 31 < x.toNat := by
        intro x hx
        rw [← hm] at hx
        have h2 := List.mem_filter.mp hx
        have h3 := List.mem_filter.mp h2.1
        exact ⟨by simpa using h3.2, by simpa using h2.2⟩
      have hall : ((c :: rest).all fun x => x == '.') = false := by
        rw [← hm]
        simpa using hd
      dsimp only
      by_cases hdig : isDigitChar c = true
      · rw [if_pos hdig]
        refine ⟨?_, ?_, ?_⟩
        · intro x hx
          rcases List.mem_cons.mp hx with rfl | hx
          · exact ⟨rfl, by decide⟩
          · exact hmem x hx
        · rw [List.all_cons]
          simp [show ('_' == '.') = false from rfl]
        · intro x hx
          simp at hx
          subst hx
          rfl
      · rw [if_neg hdig]
        refine ⟨hmem, hall, ?_⟩
        intro x hx
        simp at hx
        subst hx
        simpa using hdig

/-- The sanitizing pipeline fixes any list already satisfying its output
properties. -/
lemma sanitizeChars_fixpoint (l : List Char)
    (hchar : ∀ c ∈ l, isForbiddenChar c = false ∧ 31 < c.toNat)
    (hdots : l.all (fun c => c == '.') = false)
    (hhead : ∀ c ∈ l.head?, isDigitChar c = false) :
    sanitizeChars l = l := by
  simp only [sanitizeChars]
  have hf1 : l.filter (fun c => !isForbiddenChar c) = l :=
    List.filter_eq_self.mpr (fun c hc => by simp [(hchar c hc).1])
  have hf2 : l.filter (fun c => 31 < c.toNat) = l :=
    List.filter_eq_self.mpr (fun c hc => by simp [(hchar c hc).2])
  rw [hf1, hf2, if_neg (by simp [hdots])]
  cases l with
  | nil => rfl
  | cons c rest =>
    have := hhead c (by simp)
    simp [this]

/-- Any value with a present field is an object, hence truthy and
`typeof`-object. -/
lemma truthyObject_of_getFieldOpt (item : Json) (k : String) (v : Json)
    (h : getFieldOpt item k = some v) :
    jsTruthy item = true ∧ jsTypeObject item = true := by
  cases item <;> simp_all [getFieldOpt, jsTruthy, jsTypeObject]

/-- A field read as an array via `getField` is genuinely present. -/
lemma getFieldOpt_of_getField_arr (item : Json) (k : String) (elems : JsonList)
    (h : getField item k = .arr elems) :
    getFieldOpt item k = some (.arr elems) := by
  unfold getField at h
  cases hv : getFieldOpt item k with
  | none =>
    rw [hv] at h
    exact absurd h (by exact fun hc => Json.noConfusion hc)
  | some v =>
    rw [hv] at h
    simp at h
    rw [h]

/-- The warnings of the root item loop are exactly the
`"Item not found"` messages of the entries whose path does not exist, in
order. -/
lemma rootItems_warnings (step : String → Option Json) (present : String → Bool)
    (names : List String) :
    (rootItems step present names).2.2 =
      (names.filter (fun n => !present n)).map (fun n => "Item not found: " ++ n) := by
  induction names with
  | nil => rfl
  | cons n rest ih =>
    by_cases hp : present n = true
    · cases hstep : step n <;> simp [rootItems, hp, hstep, ih]
    · have hp' : present n = false := by simpa using hp
      simp [rootItems, hp', ih]

/-- An entry whose path exists but whose processing yields nothing leaves
the whole root loop result unchanged. -/
lemma rootItems_skip (step : String → Option Json) (present : String → Bool)
    (n : String) (pre post : List String)
    (hp : present n = true) (hs : step n = none) :
    rootItems step present (pre ++ n :: post) = rootItems step present (pre ++ post) := by
  induction pre with
  | nil => simp [rootItems, hp, hs]
  | cons m rest ih => simp [rootItems, ih]

/-- A missing entry leaves the folder child loop unchanged (nothing is
recorded). -/
lemma childrenLoop_skip (step : String → Option Json) (present : String → Bool)
    (n : String) (pre post : List String) (hp : present n = false) :
    childrenLoop step present (pre ++ n :: post) = childrenLoop step present (pre ++ post) := by
  induction pre with
  | nil => simp [childrenLoop, hp]
  | cons m rest ih => simp [childrenLoop, ih]

/-- A path that is not a directory and not a `.json`-suffixed file builds
nothing. -/
lemma buildProcessItem_file_nonjson (fuel : Nat) (fs : Fs) (p : String)
    (hdir : fs.isDir p = false) (hjson : jsEndsWith p ".json" = false) :
    buildProcessItem fuel fs p = none := by
  cases fuel with
  | zero => rfl
  | succ fuel => simp [buildProcessItem, hdir, hjson]

/-- The root loop's item list is the `order`-driven traversal itself: one
lookup per entry, in entry sequence. -/
lemma rootItems_items_filterMap (step : String → Option Json) (present : String → Bool)
    (names : List String) :
    (rootItems step present names).1 =
      names.filterMap (fun n => if present n then step n else none) := by
  induction names with
  | nil => rfl
  | cons n rest ih =>
    by_cases hp : present n = true
    · cases hstep : step n <;> simp [rootItems, hp, hstep, ih]
    · have hp' : present n = false := by simpa using hp
      simp [rootItems, hp', ih]

/-- The folder child loop is the same `order`-driven traversal. -/
lemma childrenLoop_filterMap (step : String → Option Json) (present : String → Bool)
    (names : List String) :
    childrenLoop step present names =
      names.filterMap (fun n => if present n then step n else none) := by
  induction names with
  | nil => rfl
  | cons n rest ih =>
    by_cases hp : present n = true
    · cases hstep : step n <;> simp [childrenLoop, hp, hstep, ih]
    · have hp' : present n = false := by simpa using hp
      simp [childrenLoop, hp', ih]

/-- When every entry exists and builds an item, the root loop's item list
corresponds to the entry list one-to-one, in order. -/
lemma rootItems_forall2 (step : String → Option Json) (present : String → Bool)
    (names : List String)
    (h : ∀ n ∈ names, present n = true ∧ ∃ it, step n = some it) :
    List.Forall₂ (fun n it => step n = some it) names (rootItems step present names).1 := by
  induction names with
  | nil => exact List.Forall₂.nil
  | cons n rest ih =>
    obtain ⟨hp, it, hit⟩ := h n (List.mem_cons_self n rest)
    have hrest := ih (fun m hm => h m (List.mem_cons_of_mem _ hm))
    simp only [rootItems, hp, hit]
    exact List.Forall₂.cons hit hrest

/-- When every entry exists and builds an item, the folder child loop's
item list corresponds to the entry list one-to-one, in order. -/
lemma childrenLoop_forall2 (step : String → Option Json) (present : String → Bool)
    (names : List String)
    (h : ∀ n ∈ names, present n = true ∧ ∃ it, step n = some it) :
    List.Forall₂ (fun n it => step n = some it) names (childrenLoop step present names) := by
  induction names with
  | nil => exact List.Forall₂.nil
  | cons n rest ih =>
    obtain ⟨hp, it, hit⟩ := h n (List.mem_cons_self n rest)
    have hrest := ih (fun m hm => h m (List.mem_cons_of_mem _ hm))
    simp only [childrenLoop, hp, hit]
    exact List.Forall₂.cons hit hrest

/-! ### Claim theorems -/

/-- C1: the round-trip guarantee fails on the code.  For the spec's own §8
scenario (a valid collection `T` with a single request `Get`), split
succeeds but writes the request to `out/t/get.json` (snake_case via
`sanitizeFileName`) while the collection index's `order` references
`Get.json` (original formatting); build then reports
`Item not found: Get.json`, still succeeds, and rebuilds an *empty* item
array where the input had one request — the display name and request
payload of `Get` are lost. -/
theorem c1_roundtrip_loses_request :
    (validateCollection rtCollection).is_valid = true ∧
    (jsArrElems (getField rtCollection "item")).length = 1 ∧
    rtSplit.1.success = true ∧
    rtSplit.2.files.map Prod.fst = ["out/t/get.json", "out/t/index.json"] ∧
    getFieldOpt ((rtSplit.2.lookupFile "out/t/index.json").getD .null) "order" =
      some (jarr [.str "Get.json"]) ∧
    rtBuild.1.success = true ∧
    rtBuild.1.warnings = ["Item not found: Get.json"] ∧
    getFieldOpt ((rtBuild.2.lookupFile "rebuilt.json").getD .null) "item" =
      some (jarr []) :=
  ⟨by decide, by decide, by decide, by decide, rfl, by decide, by decide, rfl⟩

/-- C2 counterexample: two requests both displayed `v1` under the distinct
folders `A` and `B` do *not* both keep the on-disk name `v1`: the parser's
single global name set renames the second one to `v1_1`, refuting
sibling-scope isolation. -/
theorem c2_counterexample :
    (parseCollection scopeCollection).items.map (fun it => it.data.sanitized_name) =
      ["A", "B"] ∧
    (parseCollection scopeCollection).items.map
      (fun it => it.children.map (fun c => c.data.sanitized_name)) = [["v1"], ["v1_1"]] ∧
    ("v1_1" : String) ≠ "v1" :=
  ⟨by decide, by decide, by decide⟩

/-- C2 amended: on-disk names are uniquified against a single global set
spanning the whole walk — whenever a node's sanitized display name was
already assigned *anywhere* earlier in the walk (any nesting level, any
parent), the node does not keep it: it receives an `_N` suffix with
`N ≥ 1`. -/
theorem c2_global_scope_renames (fuel : Nat) (item : Json) (rest : List Json)
    (parent : String) (names : List String)
    (h : sanitizeOriginalName (jsAsString (getField item "name")) ∈ names) :
    ∃ d ch l c, (procItems (fuel + 1) (item :: rest) parent names).1 =
        ProcessedItem.node d ch :: l ∧
      1 ≤ c ∧
      d.sanitized_name =
        sanitizeOriginalName (jsAsString (getField item "name")) ++ "_" ++ Nat.repr c ∧
      d.sanitized_name ≠ sanitizeOriginalName (jsAsString (getField item "name")) := by
  obtain ⟨c, hc, he⟩ := generateUniqueName_mem _ names h
  refine ⟨_, _, _, c, rfl, hc, he, ?_⟩
  rw [he]
  exact append_underscore_ne _ _

/-- Witness for the C2 amended theorem at a concrete input: processing a
request named `v1` with `v1` already in the global set yields `v1_1`. -/
theorem c2_global_scope_renames_witness :
    (sanitizeOriginalName (jsAsString (getField itemV1 "name")) ∈ ["v1"]) ∧
    ∃ d ch l c, (procItems 1 [itemV1] "" ["v1"]).1 = ProcessedItem.node d ch :: l ∧
      1 ≤ c ∧
      d.sanitized_name =
        sanitizeOriginalName (jsAsString (getField itemV1 "name")) ++ "_" ++ Nat.repr c ∧
      d.sanitized_name ≠ sanitizeOriginalName (jsAsString (getField itemV1 "name")) :=
  ⟨by decide, c2_global_scope_renames 0 itemV1 [] "" ["v1"] (by decide)⟩

/-- C3 counterexample: two sibling items displayed `Item` receive the
assigned names `Item` and `Item_1` — underscore-counter format, not the
claimed `" (N)"` format — so the order entries are `Item.json` and
`Item_1.json`, not `Item (1).json`. -/
theorem c3_counterexample :
    (parseCollection dupCollection).items.map (fun it => it.data.sanitized_name) =
      ["Item", "Item_1"] ∧
    collectionOrder (parseCollection dupCollection).items = ["Item.json", "Item_1.json"] ∧
    ("Item_1" : String) ≠ "Item (1)" ∧ ("Item_1.json" : String) ≠ "Item (1).json" :=
  ⟨by decide, by decide, by decide, by decide⟩

/-- C3 amended: a free candidate is kept unchanged; a taken candidate gets
`"_N"` suffixes for `N = 1, 2, …` until unused (first collision `base_1`);
concretely two siblings displayed `Item` are assigned `Item` and `Item_1`,
the index `order` lists `Item.json` then `Item_1.json` in input order, and
the request files actually written are the snake_case `item.json` and
`item_1.json`. -/
theorem c3_underscore_suffixes :
    (∀ base names, base ∉ names → generateUniqueName base names = base) ∧
    (∀ base names, base ∈ names → base ++ "_" ++ Nat.repr 1 ∉ names →
      generateUniqueName base names = base ++ "_" ++ Nat.repr 1) ∧
    (parseCollection dupCollection).items.map (fun it => it.data.sanitized_name) =
      ["Item", "Item_1"] ∧
    collectionOrder (parseCollection dupCollection).items = ["Item.json", "Item_1.json"] ∧
    dupSplit.2.files.map Prod.fst =
      ["out/t/item_1.json", "out/t/item.json", "out/t/index.json"] :=
  ⟨generateUniqueName_not_mem, generateUniqueName_first, by decide, by decide, by decide⟩

/-- Witness for the C3 amended theorem: both uniquifier branches at
concrete inputs. -/
theorem c3_underscore_suffixes_witness :
    generateUniqueName "Item" ["Other"] = "Item" ∧
    generateUniqueName "Item" ["Item"] = "Item" ++ "_" ++ Nat.repr 1 :=
  ⟨c3_underscore_suffixes.1 "Item" ["Other"] (by decide),
   c3_underscore_suffixes.2.1 "Item" ["Item"] (by decide) (by decide)⟩

/-- C4 counterexample: the sanitizer is not idempotent — removing the
forbidden `<` from `"< a"` exposes a leading space that only the *second*
application trims away. -/
theorem c4_counterexample :
    sanitizeOriginalName (sanitizeOriginalName "< a") ≠ sanitizeOriginalName "< a" := by
  decide

/-- C4 amended: the sanitizer is idempotent on every string whose
sanitized form is already trim-fixed (removal of forbidden or control
characters exposed no leading/trailing white space). -/
theorem c4_idempotent_on_trimmed (s : String)
    (h : jsTrim (sanitizeOriginalName s) = sanitizeOriginalName s) :
    sanitizeOriginalName (sanitizeOriginalName s) = sanitizeOriginalName s := by
  obtain ⟨hchar, hdots, hhead⟩ := sanitizeChars_spec (trimChars s.data)
  have htrim : trimChars (sanitizeOriginalName s).data = (sanitizeOriginalName s).data :=
    congrArg String.data h
  have hfix := sanitizeChars_fixpoint ((sanitizeOriginalName s).data) hchar hdots hhead
  show (⟨sanitizeChars (trimChars (sanitizeOriginalName s).data)⟩ : String) =
    sanitizeOriginalName s
  rw [htrim, hfix]

/-- Witness for the C4 amended theorem at a concrete input. -/
theorem c4_idempotent_on_trimmed_witness :
    jsTrim (sanitizeOriginalName "Create Single") = sanitizeOriginalName "Create Single" ∧
    sanitizeOriginalName (sanitizeOriginalName "Create Single") =
      sanitizeOriginalName "Create Single" :=
  ⟨by decide, c4_idempotent_on_trimmed "Create Single" (by decide)⟩

/-- C5 counterexample: a nested folder whose `order` references the
missing `ghost.json` yields a *successful* build whose `warnings` list is
empty — the omission at a nested level is not recorded in the returned
result (`processFolder` only echoes it in verbose mode), refuting the
claim that a warning is recorded at every nesting level. -/
theorem c5_counterexample :
    ghostBuild.1.warnings = [] ∧
    ghostBuild.1.success = true ∧
    ghostBuild.1.items_processed = 1 ∧
    (jsArrElems (getField ((ghostBuild.2.lookupFile "collection.json").getD .null) "item")).map
      (fun it => getFieldOpt it "item") = [some (jarr [])] :=
  ⟨by decide, by decide, by decide, rfl⟩

/-- C5 amended: only at the collection root is a missing `order` entry
recorded as an `"Item not found"` warning in the result; at nested folder
levels the missing entry's slot is silently omitted from the rebuilt
children (nothing is recorded in the result), and the operation proceeds
either way. -/
theorem c5_root_only_warnings :
    (∀ fuel fs input names n, n ∈ names → fs.pathExists (joinPath input n) = false →
      ("Item not found: " ++ n) ∈ (rootProcess fuel fs input names).2.2) ∧
    (∀ fuel fs path pre post n, fs.pathExists (joinPath path n) = false →
      childrenLoop (fun m => buildProcessItem fuel fs (joinPath path m))
          (fun m => fs.pathExists (joinPath path m)) (pre ++ n :: post) =
        childrenLoop (fun m => buildProcessItem fuel fs (joinPath path m))
          (fun m => fs.pathExists (joinPath path m)) (pre ++ post)) := by
  constructor
  · intro fuel fs input names n hmem hne
    unfold rootProcess
    rw [rootItems_warnings]
    exact List.mem_map.mpr ⟨n, List.mem_filter.mpr ⟨hmem, by simp [hne]⟩, rfl⟩
  · intro fuel fs path pre post n h
    exact childrenLoop_skip _ _ _ _ _ h

/-- Witness for the C5 amended theorem: a missing root entry is warned
about; a missing nested entry is dropped without any record. -/
theorem c5_root_only_warnings_witness :
    emptyFs.pathExists (joinPath "r" "ghost") = false ∧
    ("Item not found: " ++ "ghost") ∈ (rootProcess 1 emptyFs "r" ["ghost"]).2.2 ∧
    ghostFs.pathExists (joinPath "c/A" "ghost.json") = false ∧
    childrenLoop (fun m => buildProcessItem 1 ghostFs (joinPath "c/A" m))
        (fun m => ghostFs.pathExists (joinPath "c/A" m)) ["ghost.json"] =
      childrenLoop (fun m => buildProcessItem 1 ghostFs (joinPath "c/A" m))
        (fun m => ghostFs.pathExists (joinPath "c/A" m)) [] :=
  ⟨by decide,
   c5_root_only_warnings.1 1 emptyFs "r" ["ghost"] "ghost" (by decide) (by decide),
   by decide,
   c5_root_only_warnings.2 1 ghostFs "c/A" [] [] "ghost.json" (by decide)⟩

/-- C6: an input whose `info` object lacks both `name` and `schema`
collects *two distinct* error entries, one per missing field — the
validator does not stop at the first. -/
theorem c6_two_info_errors (j : Json)
    (hobj : jsTruthy j = true) (htype : jsTypeObject j = true)
    (hinfo : jsTruthy (getField j "info") = true)
    (hname : getFieldOpt (getField j "info") "name" = none)
    (hschema : getFieldOpt (getField j "info") "schema" = none) :
    "Missing or invalid \"info.name\" field" ∈ (validateCollection j).errors ∧
    "Missing or invalid \"info.schema\" field" ∈ (validateCollection j).errors ∧
    ("Missing or invalid \"info.name\" field" : String) ≠
      "Missing or invalid \"info.schema\" field" := by
  have hname' := hname
  have hschema' := hschema
  simp only [getField] at hname' hschema'
  have hn : jsTruthy (getField (getField j "info") "name") = false := by
    simp only [getField, hname', Option.getD_none]
    rfl
  have hs : jsTruthy (getField (getField j "info") "schema") = false := by
    simp only [getField, hschema', Option.getD_none]
    rfl
  refine ⟨?_, ?_, by decide⟩ <;>
  · simp only [validateCollection, hobj, htype, hinfo, hn, hs, Bool.true_and,
      Bool.not_true, Bool.false_and, if_false, if_true, Bool.false_eq_true]
    split
    · simp
    · split <;> simp

/-- Witness for C6 at a concrete input lacking both fields. -/
theorem c6_two_info_errors_witness :
    getFieldOpt (getField noNameSchemaInput "info") "name" = none ∧
    getFieldOpt (getField noNameSchemaInput "info") "schema" = none ∧
    ("Missing or invalid \"info.name\" field" ∈ (validateCollection noNameSchemaInput).errors ∧
     "Missing or invalid \"info.schema\" field" ∈ (validateCollection noNameSchemaInput).errors ∧
     ("Missing or invalid \"info.name\" field" : String) ≠
       "Missing or invalid \"info.schema\" field") :=
  ⟨rfl, rfl, c6_two_info_errors noNameSchemaInput rfl rfl rfl rfl rfl⟩

/-- C7: a named node carrying both an `item` array and a `request` object
produces the "treating as folder" *warning* (its own contribution to the
error list is empty — only child/sibling errors remain), and the parser
deterministically classifies it as a folder, so split does not fail on
it. -/
theorem c7_both_is_folder_warning (fuel : Nat) (item : Json) (rest : List Json)
    (path : String) (i : Nat) (parent : String) (names : List String) (elems : JsonList)
    (hitem : getField item "item" = .arr elems)
    (hname : jsTruthy (getField item "name") = true)
    (hnamestr : jsIsString (getField item "name") = true)
    (hreq : jsTruthy (getField item "request") = true)
    (hreqobj : jsTypeObject (getField item "request") = true) :
    (("Item at " ++ (path ++ ".item[" ++ Nat.repr i ++ "]") ++
        " has both \"item\" and \"request\" fields, treating as folder") ∈
      (validateItems (fuel + 1) (item :: rest) path i).warnings) ∧
    (validateItems (fuel + 1) (item :: rest) path i).errors =
      (validateItems fuel elems.toList (path ++ ".item[" ++ Nat.repr i ++ "]") 0).errors ++
        (validateItems fuel rest path (i + 1)).errors ∧
    ∃ d ch l, (procItems (fuel + 1) (item :: rest) parent names).1 =
        ProcessedItem.node d ch :: l ∧
      d.type = ItemType.folder := by
  have hobj := truthyObject_of_getFieldOpt item "item" _
    (getFieldOpt_of_getField_arr _ _ _ hitem)
  have harr : jsIsArray (getField item "item") = true := by rw [hitem]; rfl
  have helems : jsArrElems (getField item "item") = elems.toList := by rw [hitem]; rfl
  refine ⟨?_, ?_, ?_⟩
  · simp [validateItems, hobj.1, hobj.2, hname, hnamestr, harr, hreq, hreqobj]
  · simp [validateItems, hobj.1, hobj.2, hname, hnamestr, harr, hreq, hreqobj, helems]
  · refine ⟨_, _, _, rfl, ?_⟩
    simp [hitem, jsTruthy]

/-- Witness for C7 at a concrete both-fields node. -/
theorem c7_both_is_folder_warning_witness :
    getField bothFieldsItem "item" = Json.arr .nil ∧
    ((("Item at " ++ ("root" ++ ".item[" ++ Nat.repr 0 ++ "]") ++
        " has both \"item\" and \"request\" fields, treating as folder") ∈
      (validateItems 1 [bothFieldsItem] "root" 0).warnings) ∧
    (validateItems 1 [bothFieldsItem] "root" 0).errors =
      (validateItems 0 JsonList.nil.toList ("root" ++ ".item[" ++ Nat.repr 0 ++ "]") 0).errors ++
        (validateItems 0 [] "root" 1).errors ∧
    ∃ d ch l, (procItems 1 [bothFieldsItem] "" []).1 = ProcessedItem.node d ch :: l ∧
      d.type = ItemType.folder) :=
  ⟨rfl, c7_both_is_folder_warning 0 bothFieldsItem [] "root" 0 "" [] .nil rfl rfl rfl rfl rfl⟩

/-- C8: the children array — at the root (`execute`) and inside any folder
(`processFolder`) — is assembled by traversing the index record's `order`
array in its exact sequence (one lookup per entry, filesystem listing
order never consulted); in particular, whenever every `order` entry exists
on disk and builds an item, the assembled children correspond to the
`order` entries one-to-one, in exactly the `order` sequence. -/
theorem c8_children_follow_order :
    (∀ fuel fs input names, (rootProcess fuel fs input names).1 =
      names.filterMap (fun n => if fs.pathExists (joinPath input n) then
        buildProcessItem fuel fs (joinPath input n) else none)) ∧
    (∀ (step : String → Option Json) (present : String → Bool) names,
      childrenLoop step present names =
        names.filterMap (fun n => if present n then step n else none)) ∧
    (∀ fuel fs input names,
      (∀ n ∈ names, fs.pathExists (joinPath input n) = true ∧
        ∃ it, buildProcessItem fuel fs (joinPath input n) = some it) →
      List.Forall₂ (fun n it => buildProcessItem fuel fs (joinPath input n) = some it)
        names (rootProcess fuel fs input names).1 ∧
      List.Forall₂ (fun n it => buildProcessItem fuel fs (joinPath input n) = some it)
        names (childrenLoop (fun m => buildProcessItem fuel fs (joinPath input m))
          (fun m => fs.pathExists (joinPath input m)) names)) :=
  ⟨fun _ _ _ names => rootItems_items_filterMap _ _ names,
   fun step present names => childrenLoop_filterMap step present names,
   fun _ _ _ _ h =>
     ⟨rootItems_forall2 _ _ _ h, childrenLoop_forall2 _ _ _ h⟩⟩

/-- Witness for C8: two existing request files listed in reverse
alphabetical order are assembled in exactly that order. -/
theorem c8_children_follow_order_witness :
    (∀ n ∈ ["b.json", "a.json"], orderFs.pathExists (joinPath "r" n) = true ∧
      ∃ it, buildProcessItem 1 orderFs (joinPath "r" n) = some it) ∧
    List.Forall₂ (fun n it => buildProcessItem 1 orderFs (joinPath "r" n) = some it)
      ["b.json", "a.json"] (rootProcess 1 orderFs "r" ["b.json", "a.json"]).1 :=
  have h : ∀ n ∈ ["b.json", "a.json"], orderFs.pathExists (joinPath "r" n) = true ∧
      ∃ it, buildProcessItem 1 orderFs (joinPath "r" n) = some it := by
    intro n hn
    rcases List.mem_cons.mp hn with rfl | hn2
    · exact ⟨rfl, _, rfl⟩
    · rcases List.mem_cons.mp hn2 with rfl | h3
      · exact ⟨rfl, _, rfl⟩
      · exact absurd h3 (List.not_mem_nil n)
  ⟨h, (c8_children_follow_order.2.2 1 orderFs "r" ["b.json", "a.json"] h).1⟩

/-- C9: when structural validation of the input collection fails, split
returns `success = false`, reports exactly the collected validation
errors, counts no created files or folders, and leaves the file system
untouched. -/
theorem c9_invalid_no_writes (input_path : String) (j : Json) (opts : SplitOptions)
    (cwd : String) (fs : Fs)
    (h : (validateCollection j).is_valid = false) :
    (splitExecute input_path true j opts cwd fs).1.success = false ∧
    (splitExecute input_path true j opts cwd fs).1.errors = (validateCollection j).errors ∧
    (splitExecute input_path true j opts cwd fs).1.files_created = 0 ∧
    (splitExecute input_path true j opts cwd fs).1.folders_created = 0 ∧
    (splitExecute input_path true j opts cwd fs).2 = fs := by
  refine ⟨?_, ?_, ?_, ?_, ?_⟩ <;> simp [splitExecute, h]

/-- Witness for C9: a collection without `info` fails validation and
split leaves the file system unchanged. -/
theorem c9_invalid_no_writes_witness :
    (validateCollection (jobj [])).is_valid = false ∧
    ((splitExecute "in.json" true (jobj []) ⟨some "out", false, false⟩ "/cwd" emptyFs).1.success
        = false ∧
     (splitExecute "in.json" true (jobj []) ⟨some "out", false, false⟩ "/cwd" emptyFs).1.errors
        = (validateCollection (jobj [])).errors ∧
     (splitExecute "in.json" true (jobj []) ⟨some "out", false, false⟩ "/cwd" emptyFs).1.files_created
        = 0 ∧
     (splitExecute "in.json" true (jobj []) ⟨some "out", false, false⟩ "/cwd" emptyFs).1.folders_created
        = 0 ∧
     (splitExecute "in.json" true (jobj []) ⟨some "out", false, false⟩ "/cwd" emptyFs).2
        = emptyFs) :=
  ⟨by decide,
   c9_invalid_no_writes "in.json" (jobj []) ⟨some "out", false, false⟩ "/cwd" emptyFs (by decide)⟩

/-- C10: an `order` entry whose path exists but is neither a directory nor
a `.json`-suffixed file is skipped silently — removing it from `order`
changes nothing in the build result (same items, same `items_processed`,
same warnings) — while the recorded warnings are exactly the
`"Item not found"` messages of the entries whose paths do not exist at
all. -/
theorem c10_nonjson_entry_skipped :
    (∀ fuel fs input pre post n c,
      fs.lookupFile (joinPath input n) = some c →
      fs.isDir (joinPath input n) = false →
      jsEndsWith (joinPath input n) ".json" = false →
      rootProcess fuel fs input (pre ++ n :: post) = rootProcess fuel fs input (pre ++ post)) ∧
    (∀ fuel fs input names,
      (rootProcess fuel fs input names).2.2 =
        (names.filter (fun n => !(fs.pathExists (joinPath input n)))).map
          (fun n => "Item not found: " ++ n)) := by
  constructor
  · intro fuel fs input pre post n c hfile hdir hjson
    unfold rootProcess
    apply rootItems_skip
    · simp [Fs.pathExists, Fs.isFile, hfile]
    · exact buildProcessItem_file_nonjson fuel fs _ hdir hjson
  · intro fuel fs input names
    unfold rootProcess
    exact rootItems_warnings _ _ _

/-- Witness for C10: a `.txt` file listed in `order` is dropped without a
trace. -/
theorem c10_nonjson_entry_skipped_witness :
    strayFileFs.lookupFile (joinPath "r" "x.txt") = some (jobj [("name", .str "X")]) ∧
    strayFileFs.isDir (joinPath "r" "x.txt") = false ∧
    jsEndsWith (joinPath "r" "x.txt") ".json" = false ∧
    rootProcess 1 strayFileFs "r" ["x.txt"] = rootProcess 1 strayFileFs "r" [] :=
  ⟨rfl, by decide, by decide,
   c10_nonjson_entry_skipped.1 1 strayFileFs "r" [] [] "x.txt"
     (jobj [("name", .str "X")]) rfl (by decide) (by decide)⟩

end Carveman
